import Mathlib

/-!
# fs-synchronizer: verification of the synchronization engine

Shallow embedding of the fs-synchronizer peer-to-peer filesystem
synchronizer (Rust). Paths and file contents are modelled as byte lists
(`List Nat`, each entry a byte value); the broker key/value store, the
global `all_files` set and the published event stream form a `RedisState`;
the local filesystem is a flat association list from paths to contents.
Machine integers are `Nat` with explicit reductions modulo `2 ^ 64` or
`2 ^ 32` where the Rust code relies on wrapping arithmetic.

The broker transport (r2d2_redis) is out of scope per the specification:
transactional blocks are modelled with the assumed MULTI/EXEC/DISCARD
semantics (commands queue, EXEC applies them atomically, DISCARD drops
them), with an explicit failure oracle for commands and for DISCARD.
-/

set_option maxRecDepth 100000

namespace FsSync

/-- Byte strings: lists of byte values. -/
abbrev Bytes := List Nat

/-- Paths travel as their UTF-8 byte strings. -/
abbrev Path := List Nat

/-! ## Little-endian / big-endian byte utilities -/

/-- `k` little-endian bytes of `n` (low byte first), as written by the
snappy framing format for chunk lengths and CRC32C checksums. -/
def leBytes : Nat → Nat → Bytes
  | 0, _ => []
  | k + 1, n => n % 256 :: leBytes k (n / 256)

/-- Read a little-endian byte string back into a number. -/
def fromLE : Bytes → Nat
  | [] => 0
  | b :: bs => b + 256 * fromLE bs

/-- `k` big-endian bytes of `n` (high byte first), as used by the
MessagePack fixed-width integer and length fields. -/
def beBytes : Nat → Nat → Bytes
  | 0, _ => []
  | k + 1, n => beBytes k (n / 256) ++ [n % 256]

/-- Read a big-endian byte string back into a number. -/
def fromBE (bs : Bytes) : Nat :=
  bs.foldl (fun acc b => acc * 256 + b) 0

theorem leBytes_length (k n : Nat) : (leBytes k n).length = k := by
  induction k generalizing n with
  | zero => rfl
  | succ k ih => simp [leBytes, ih]

theorem beBytes_length (k n : Nat) : (beBytes k n).length = k := by
  induction k generalizing n with
  | zero => rfl
  | succ k ih => simp [beBytes, ih]

theorem fromLE_leBytes (k n : Nat) (h : n < 256 ^ k) :
    fromLE (leBytes k n) = n := by
  induction k generalizing n with
  | zero => simp [leBytes, fromLE]; omega
  | succ k ih =>
      have hdiv : n / 256 < 256 ^ k := by
        rw [Nat.div_lt_iff_lt_mul (by norm_num)]
        calc n < 256 ^ (k + 1) := h
        _ = 256 ^ k * 256 := by ring
      simp [leBytes, fromLE, ih (n / 256) hdiv]
      omega

theorem fromBE_aux (bs : Bytes) (acc : Nat) :
    bs.foldl (fun acc b => acc * 256 + b) acc
      = acc * 256 ^ bs.length + bs.foldl (fun acc b => acc * 256 + b) 0 := by
  induction bs generalizing acc with
  | nil => simp
  | cons b bs ih =>
      simp only [List.foldl, List.length_cons, Nat.zero_mul, Nat.zero_add]
      rw [ih (acc * 256 + b), ih b]
      ring

theorem fromBE_beBytes (k n : Nat) (h : n < 256 ^ k) :
    fromBE (beBytes k n) = n := by
  induction k generalizing n with
  | zero => simp [beBytes, fromBE]; omega
  | succ k ih =>
      have hdiv : n / 256 < 256 ^ k := by
        rw [Nat.div_lt_iff_lt_mul (by norm_num)]
        calc n < 256 ^ (k + 1) := h
        _ = 256 ^ k * 256 := by ring
      simp only [beBytes, fromBE, List.foldl_append, List.foldl]
      rw [show (beBytes k (n / 256)).foldl (fun acc b => acc * 256 + b) 0
            = fromBE (beBytes k (n / 256)) from rfl, ih (n / 256) hdiv]
      omega

/-- Take exactly `k` bytes from the front of a byte string, returning the
taken prefix and the remainder; `none` when fewer than `k` are available. -/
def readBytes (k : Nat) (bs : Bytes) : Option (Bytes × Bytes) :=
  if k ≤ bs.length then some (bs.take k, bs.drop k) else none

theorem readBytes_append (s rest : Bytes) :
    readBytes s.length (s ++ rest) = some (s, rest) := by
  simp [readBytes, List.take_left, List.drop_left]

/-! ## Association-list maps and list sets

The broker's key space and the local filesystem are both modelled as
association lists from byte strings to byte strings; `all_files` is a
duplicate-free-by-construction list of paths. -/

/-- Look a key up in an association list. -/
def kvLookup : List (Bytes × Bytes) → Bytes → Option Bytes
  | [], _ => none
  | (k, v) :: rest, key => if k = key then some v else kvLookup rest key

/-- Set a key (replacing an existing binding, else appending). -/
def kvSet : List (Bytes × Bytes) → Bytes → Bytes → List (Bytes × Bytes)
  | [], key, val => [(key, val)]
  | (k, v) :: rest, key, val =>
      if k = key then (key, val) :: rest else (k, v) :: kvSet rest key val

/-- Delete every binding of a key. -/
def kvErase : List (Bytes × Bytes) → Bytes → List (Bytes × Bytes)
  | [], _ => []
  | (k, v) :: rest, key =>
      if k = key then kvErase rest key else (k, v) :: kvErase rest key

theorem kvLookup_set_self (m : List (Bytes × Bytes)) (k v : Bytes) :
    kvLookup (kvSet m k v) k = some v := by
  induction m with
  | nil => simp [kvSet, kvLookup]
  | cons e rest ih =>
      obtain ⟨k0, v0⟩ := e
      by_cases h : k0 = k <;> simp [kvSet, kvLookup, h, ih]

theorem kvLookup_set_ne (m : List (Bytes × Bytes)) (k k' v : Bytes)
    (h : k ≠ k') : kvLookup (kvSet m k v) k' = kvLookup m k' := by
  induction m with
  | nil => simp [kvSet, kvLookup, h]
  | cons e rest ih =>
      obtain ⟨k0, v0⟩ := e
      by_cases he : k0 = k
      · subst he; simp [kvSet, kvLookup, h, Ne.symm h]
      · by_cases he' : k0 = k' <;>
          simp [kvSet, kvLookup, he, he', ih, Ne.symm h]

theorem kvLookup_erase_self (m : List (Bytes × Bytes)) (k : Bytes) :
    kvLookup (kvErase m k) k = none := by
  induction m with
  | nil => simp [kvErase, kvLookup]
  | cons e rest ih =>
      obtain ⟨k0, v0⟩ := e
      by_cases h : k0 = k <;> simp [kvErase, kvLookup, h, ih]

theorem kvLookup_erase_ne (m : List (Bytes × Bytes)) (k k' : Bytes)
    (h : k ≠ k') : kvLookup (kvErase m k) k' = kvLookup m k' := by
  induction m with
  | nil => simp [kvErase, kvLookup]
  | cons e rest ih =>
      obtain ⟨k0, v0⟩ := e
      by_cases he : k0 = k
      · subst he; simp [kvErase, kvLookup, h, ih]
      · by_cases he' : k0 = k' <;>
          simp [kvErase, kvLookup, he, he', ih, Ne.symm h]

/-- Redis SADD: add a member to a set (no duplicates). -/
def sAdd (s : List Bytes) (x : Bytes) : List Bytes :=
  if x ∈ s then s else x :: s

/-- Redis SREM: remove a member from a set. -/
def sRem (s : List Bytes) (x : Bytes) : List Bytes :=
  s.filter (fun y => y ≠ x)

/-- Add a member to the set stored under a key, creating the set when
absent (the destination side of Redis SMOVE). -/
def setsAdd : List (Bytes × List Bytes) → Bytes → Bytes → List (Bytes × List Bytes)
  | [], k, m => [(k, [m])]
  | (k0, ms) :: rest, k, m =>
      if k0 = k then (k, sAdd ms m) :: rest else (k0, ms) :: setsAdd rest k m

theorem mem_sAdd_self (s : List Bytes) (x : Bytes) : x ∈ sAdd s x := by
  by_cases h : x ∈ s <;> simp [sAdd, h]

theorem not_mem_sRem_self (s : List Bytes) (x : Bytes) : x ∉ sRem s x := by
  simp [sRem]

/-! ## Content hashing: SipHash-1-3 with zero keys

`std::collections::hash_map::DefaultHasher::default()` is SipHash-1-3
keyed with `(0, 0)`. `local_fs_store.rs` and `redis_store.rs` feed the
whole byte string through `Hasher::write` and read `finish()`, so the
hash of a byte string is plain SipHash-1-3 of it. All state words are
64-bit, modelled as `Nat` reduced modulo `2 ^ 64`. -/

/-- 64-bit word arithmetic base. -/
def w64 : Nat := 2 ^ 64

/-- Rotate a 64-bit word left by `r` bits. -/
def rotl64 (x r : Nat) : Nat :=
  ((x <<< r) % w64) ||| (x >>> (64 - r))

/-- 64-bit wrapping addition. -/
def add64 (a b : Nat) : Nat := (a + b) % w64

/-- The four 64-bit SipHash state words. -/
structure SipState where
  v0 : Nat
  v1 : Nat
  v2 : Nat
  v3 : Nat

/-- One SipRound permutation of the state. -/
def sipRound (s : SipState) : SipState :=
  let v0 := add64 s.v0 s.v1
  let v1 := rotl64 s.v1 13
  let v1 := v1 ^^^ v0
  let v0 := rotl64 v0 32
  let v2 := add64 s.v2 s.v3
  let v3 := rotl64 s.v3 16
  let v3 := v3 ^^^ v2
  let v0 := add64 v0 v3
  let v3 := rotl64 v3 21
  let v3 := v3 ^^^ v0
  let v2 := add64 v2 v1
  let v1 := rotl64 v1 17
  let v1 := v1 ^^^ v2
  let v2 := rotl64 v2 32
  ⟨v0, v1, v2, v3⟩

/-- Absorb one 64-bit message word: SipHash-1-3 runs a single SipRound
per compression step. -/
def sipCompress (s : SipState) (m : Nat) : SipState :=
  let s := { s with v3 := s.v3 ^^^ m }
  let s := sipRound s
  { s with v0 := s.v0 ^^^ m }

/-- SipHash initial state for key `(0, 0)` (the `DefaultHasher` key). -/
def sipInit : SipState :=
  ⟨0x736f6d6570736575, 0x646f72616e646f6d, 0x6c7967656e657261, 0x7465646279746573⟩

/-- Process the message in 8-byte little-endian words, then absorb the
final word (remaining bytes, with the total length modulo 256 in the top
byte) and run the 3 finalization rounds. -/
def sipHashAux (totalLen : Nat) : SipState → Bytes → Nat
  | s, b0 :: b1 :: b2 :: b3 :: b4 :: b5 :: b6 :: b7 :: rest =>
      sipHashAux totalLen
        (sipCompress s (fromLE [b0, b1, b2, b3, b4, b5, b6, b7])) rest
  | s, bs =>
      let b := ((totalLen % 256) <<< 56) ||| fromLE bs
      let s := sipCompress s b
      let s := { s with v2 := s.v2 ^^^ 0xff }
      let s := sipRound (sipRound (sipRound s))
      ((s.v0 ^^^ s.v1) ^^^ (s.v2 ^^^ s.v3)) % w64

/-- The 64-bit content hash used throughout the program
(`DefaultHasher` = SipHash-1-3 with zero keys over the raw bytes). -/
def hashContent (bs : Bytes) : Nat :=
  sipHashAux bs.length sipInit bs

/-! ## Snappy frame format (the `snap` crate)

`local_fs_store.rs` and `redis_store.rs` frame file contents through
`snap::write::FrameEncoder` / `snap::read::FrameDecoder`. The framing:
a stream identifier chunk, then one chunk per up-to-65536-byte block of
input. We model the uncompressed-chunk case (type `0x01`: 3-byte
little-endian chunk length, 4-byte masked CRC32C of the data, the data),
which is what `snap` emits whenever Snappy compression does not shrink
the block — in particular for the short, incompressible contents
exercised here. An empty input produces no output at all (the encoder
writes its header lazily on the first write), and the decoder maps empty
input to empty output. -/

/-- One step of the bitwise CRC32C (Castagnoli, reflected polynomial
`0x82F63B78`): XOR the byte into the low bits, then shift out 8 bits. -/
def crc32cByte (crc b : Nat) : Nat :=
  (List.range 8).foldl
    (fun c _ => if c % 2 = 1 then (c >>> 1) ^^^ 0x82F63B78 else c >>> 1)
    ((crc ^^^ b) % 2 ^ 32)

/-- CRC32C of a byte string (initial value and final XOR `0xFFFFFFFF`). -/
def crc32c (bs : Bytes) : Nat :=
  (bs.foldl crc32cByte 0xFFFFFFFF) ^^^ 0xFFFFFFFF

/-- The snappy frame format's masked checksum:
`rotate_right(crc, 15) + 0xa282ead8`, truncated to 32 bits. -/
def maskedCrc (bs : Bytes) : Nat :=
  let c := crc32c bs
  ((((c >>> 15) ||| ((c <<< 17) % 2 ^ 32)) % 2 ^ 32) + 0xa282ead8) % 2 ^ 32

/-- The snappy stream identifier chunk: `0xff 0x06 0x00 0x00 "sNaPpY"`. -/
def streamIdent : Bytes :=
  [0xff, 0x06, 0x00, 0x00, 0x73, 0x4e, 0x61, 0x50, 0x70, 0x59]

/-- An uncompressed data chunk: type byte `0x01`, 3-byte little-endian
length of (checksum + data), 4-byte little-endian masked CRC32C of the
data, then the data itself. -/
def snapChunk (frame : Bytes) : Bytes :=
  0x01 :: (leBytes 3 (frame.length + 4) ++ leBytes 4 (maskedCrc frame) ++ frame)

/-- Split the input into 65536-byte blocks, one chunk each. The fuel
argument (instantiated with the input length, which every step shrinks
by at least one) keeps the recursion structural; the fuel never runs
out on the instantiation below. -/
def snapFramesAux : Nat → Bytes → Bytes
  | _, [] => []
  | 0, _ => []
  | fuel + 1, data => snapChunk (data.take 65536) ++ snapFramesAux fuel (data.drop 65536)

/-- Chunk sequence of a snappy stream for the given data. -/
def snapFrames (data : Bytes) : Bytes :=
  snapFramesAux data.length data

/-- `snap::write::FrameEncoder` over the whole input: empty input writes
nothing; otherwise the stream identifier followed by the data chunks. -/
def snapCompress (data : Bytes) : Bytes :=
  if data = [] then [] else streamIdent ++ snapFrames data

/-- Parse the chunk sequence of a snappy stream, concatenating the data
of each uncompressed chunk after verifying its checksum. Compressed
chunks (type `0x00`) are not produced for the inputs considered here and
make the parse fail. -/
def snapReadChunksAux : Nat → Bytes → Option Bytes
  | _, [] => some []
  | 0, _ => none
  | fuel + 1, t :: rest =>
    if t = 0x01 then
      match readBytes 3 rest with
      | none => none
      | some (lenB, r1) =>
        match readBytes (fromLE lenB) r1 with
        | none => none
        | some (body, r2) =>
          match readBytes 4 body with
          | none => none
          | some (crcB, data) =>
            if fromLE crcB = maskedCrc data then
              (snapReadChunksAux fuel r2).map (fun tl => data ++ tl)
            else none
    else none

/-- Chunk-sequence parse of a snappy stream body. The fuel (the input
length, which every step shrinks by at least one) keeps the recursion
structural and never runs out on this instantiation. -/
def snapReadChunks (bs : Bytes) : Option Bytes :=
  snapReadChunksAux bs.length bs

/-- `snap::read::FrameDecoder` over a whole byte string: empty input
yields empty output; otherwise the stream identifier must lead, and the
chunk data is concatenated. -/
def snapDecompress (bs : Bytes) : Option Bytes :=
  if bs = [] then some []
  else
    match readBytes streamIdent.length bs with
    | none => none
    | some (hd, rest) =>
        if hd = streamIdent then snapReadChunks rest else none

/-! ## Decimal rendering and parsing of hashes

`redis_store.rs` stores `hash.to_string().as_bytes()` under `hash:P` and
parses it back with `str::parse::<u64>` after `String::from_utf8_lossy`. -/

/-- The decimal ASCII bytes of a number (`u64::to_string`). -/
def decimalBytes (n : Nat) : Bytes :=
  (Nat.toDigits 10 n).map Char.toNat

/-- Is a byte an ASCII digit. -/
def isDigitByte (b : Nat) : Bool :=
  decide (48 ≤ b ∧ b ≤ 57)

/-- `str::parse::<u64>` on a byte string: nonempty, all digits, value in
`u64` range. Bytes that are not ASCII digits (including the replacement
characters `from_utf8_lossy` introduces) make the parse fail. -/
def parseDecimal (bs : Bytes) : Option Nat :=
  if bs ≠ [] ∧ bs.all isDigitByte then
    let n := bs.foldl (fun a b => a * 10 + (b - 48)) 0
    if n < w64 then some n else none
  else none

/-! ## Event payloads and the MessagePack wire codec

`redis_store.rs` constructs the four `RedisPublishPayload` variants
`NewFile(emitter_id, hash, path)`, `ModifiedFile(emitter_id, hash,
path)`, `RemovedFile(emitter_id, path)` and `RenamedFile(emitter_id,
old, new)`, serialized with `rmp_serde::to_vec` on publish and decoded
with `rmp_serde::from_slice` in `remote_files_event_handler.rs`. The
declaration of this hash-carrying enum is not among the files in the
tree (the copy of `client/redis_client.rs` present declares an earlier
two-variant form without the hash), so the enum is reconstructed from
its construction sites in `redis_store.rs` and its destructuring in
`remote_files_event_handler.rs`, matching the spec's `EventPayload`.

The wire format follows rmp-serde's tagged-array convention for enums:
a two-element array `[variant_index, [fields...]]`, with `u64` fields in
MessagePack's compact unsigned-integer forms and paths as MessagePack
strings of their UTF-8 bytes. -/

/-- The event payload. Field order per variant is emitter id first, as
`get_emitter_id` in `client/redis_client.rs` extracts the first field of
every variant. -/
inductive EventPayload where
  | NewFile (emitterId hash : Nat) (path : Path)
  | ModifiedFile (emitterId hash : Nat) (path : Path)
  | RemovedFile (emitterId : Nat) (path : Path)
  | RenamedFile (emitterId : Nat) (oldPath newPath : Path)
deriving DecidableEq

/-- `RedisPublishPayload::get_emitter_id`: the first field of every
variant. -/
def EventPayload.get_emitter_id : EventPayload → Nat
  | .NewFile e _ _ => e
  | .ModifiedFile e _ _ => e
  | .RemovedFile e _ => e
  | .RenamedFile e _ _ => e

/-- MessagePack compact encoding of an unsigned 64-bit integer:
positive fixint, `0xcc`/`0xcd`/`0xce`/`0xcf` widths. -/
def encUint (n : Nat) : Bytes :=
  if n < 0x80 then [n]
  else if n < 0x100 then [0xcc, n]
  else if n < 0x10000 then 0xcd :: beBytes 2 n
  else if n < 0x100000000 then 0xce :: beBytes 4 n
  else 0xcf :: beBytes 8 n

/-- Parse one MessagePack unsigned integer, returning the value and the
unconsumed tail. -/
def decodeUint : Bytes → Option (Nat × Bytes)
  | [] => none
  | b :: rest =>
    if b < 0x80 then some (b, rest)
    else if b = 0xcc then
      match rest with
      | v :: r => some (v, r)
      | [] => none
    else if b = 0xcd then
      (readBytes 2 rest).map (fun pr => (fromBE pr.1, pr.2))
    else if b = 0xce then
      (readBytes 4 rest).map (fun pr => (fromBE pr.1, pr.2))
    else if b = 0xcf then
      (readBytes 8 rest).map (fun pr => (fromBE pr.1, pr.2))
    else none

/-- MessagePack string header for a byte length: fixstr, `str8`,
`str16`, `str32`. -/
def encStrHeader (len : Nat) : Bytes :=
  if len < 32 then [0xa0 + len]
  else if len < 0x100 then [0xd9, len]
  else if len < 0x10000 then 0xda :: beBytes 2 len
  else 0xdb :: beBytes 4 len

/-- MessagePack string: header then the raw UTF-8 bytes. -/
def encStr (s : Bytes) : Bytes :=
  encStrHeader s.length ++ s

/-- Parse one MessagePack string, returning its bytes and the tail. -/
def decodeStr : Bytes → Option (Bytes × Bytes)
  | [] => none
  | b :: rest =>
    if 0xa0 ≤ b ∧ b < 0xc0 then readBytes (b - 0xa0) rest
    else if b = 0xd9 then
      match rest with
      | n :: r => readBytes n r
      | [] => none
    else if b = 0xda then
      match decodeUint (0xcd :: rest) with
      | some (n, r) => readBytes n r
      | none => none
    else if b = 0xdb then
      match decodeUint (0xce :: rest) with
      | some (n, r) => readBytes n r
      | none => none
    else none

/-- `rmp_serde::to_vec` on an event payload: `[variant_index,
[fields...]]` with fixarray headers. -/
def encodePayload : EventPayload → Bytes
  | .NewFile e h p => [0x92] ++ encUint 0 ++ ([0x93] ++ encUint e ++ encUint h ++ encStr p)
  | .ModifiedFile e h p => [0x92] ++ encUint 1 ++ ([0x93] ++ encUint e ++ encUint h ++ encStr p)
  | .RemovedFile e p => [0x92] ++ encUint 2 ++ ([0x92] ++ encUint e ++ encStr p)
  | .RenamedFile e old new =>
      [0x92] ++ encUint 3 ++ ([0x93] ++ encUint e ++ encStr old ++ encStr new)

/-- Consume one expected marker byte (an array header) from the input. -/
def expectByte (b : Nat) : Bytes → Option Bytes
  | x :: rest => if x = b then some rest else none
  | [] => none

/-- `rmp_serde::from_slice` on an event payload: read the outer
two-element array header, the variant index, then the fields of that
variant behind their own array header. Unknown indices, wrong markers
and truncated input fail. -/
def decodePayload (bs : Bytes) : Option EventPayload :=
  (expectByte 0x92 bs).bind fun r0 =>
  (decodeUint r0).bind fun pr =>
  if pr.1 = 0 then
    (expectByte 0x93 pr.2).bind fun r2 =>
    (decodeUint r2).bind fun pe =>
    (decodeUint pe.2).bind fun ph =>
    (decodeStr ph.2).map fun pp => .NewFile pe.1 ph.1 pp.1
  else if pr.1 = 1 then
    (expectByte 0x93 pr.2).bind fun r2 =>
    (decodeUint r2).bind fun pe =>
    (decodeUint pe.2).bind fun ph =>
    (decodeStr ph.2).map fun pp => .ModifiedFile pe.1 ph.1 pp.1
  else if pr.1 = 2 then
    (expectByte 0x92 pr.2).bind fun r2 =>
    (decodeUint r2).bind fun pe =>
    (decodeStr pe.2).map fun pp => .RemovedFile pe.1 pp.1
  else if pr.1 = 3 then
    (expectByte 0x93 pr.2).bind fun r2 =>
    (decodeUint r2).bind fun pe =>
    (decodeStr pe.2).bind fun po =>
    (decodeStr po.2).map fun pn => .RenamedFile pe.1 po.1 pn.1
  else none

/-- Well-formedness of a payload as built by the program: emitter ids
and hashes are `u64` values, path byte strings are genuine byte strings
with `u32`-bounded length (MessagePack `str32` is the largest header). -/
def PathWF (p : Path) : Prop :=
  p.length < 0x100000000 ∧ ∀ b ∈ p, b < 256

/-- Payload well-formedness, per variant. -/
def PayloadWF : EventPayload → Prop
  | .NewFile e h p => e < w64 ∧ h < w64 ∧ PathWF p
  | .ModifiedFile e h p => e < w64 ∧ h < w64 ∧ PathWF p
  | .RemovedFile e p => e < w64 ∧ PathWF p
  | .RenamedFile e old new => e < w64 ∧ PathWF old ∧ PathWF new

/-! ## Broker store state and commands

The four typed entries of the store: `content:P` and `hash:P` in the
key/value space, membership of `P` in the `all_files` set, and the
pub/sub stream of published `(channel, message)` pairs. -/

/-- The state of the shared broker as the program uses it. `sets`
holds the sets living at keys other than `all_files`: the program never
reads them, but the SMOVE that `renamed_file` issues can deposit a
member into one (see `applyCmd`). Those destination keys are raw path
strings, which never collide with the prefixed `hash:`/`content:`
string keys of `kv`. -/
structure RedisState where
  kv : List (Bytes × Bytes)
  allFiles : List Bytes
  published : List (String × Bytes)
  sets : List (Bytes × List Bytes)
deriving DecidableEq

/-- `to_hash_key`: `"hash:" + path` (UTF-8 bytes of the prefix). -/
def hashKey (p : Path) : Bytes :=
  [0x68, 0x61, 0x73, 0x68, 0x3a] ++ p

/-- `to_content_key`: `"content:" + path`. -/
def contentKey (p : Path) : Bytes :=
  [0x63, 0x6f, 0x6e, 0x74, 0x65, 0x6e, 0x74, 0x3a] ++ p

theorem hashKey_inj (p q : Path) (h : hashKey p = hashKey q) : p = q := by
  simpa [hashKey] using h

theorem contentKey_inj (p q : Path) (h : contentKey p = contentKey q) : p = q := by
  simpa [contentKey] using h

theorem hashKey_ne_contentKey (p q : Path) : hashKey p ≠ contentKey q := by
  simp [hashKey, contentKey]

/-- The pub/sub channel constant the store publishes on
(`file_events::FILE_EVENT`; the spec fixes the single channel
`file_event`). -/
def FILE_EVENT : String := "file_event"

/-- The broker commands issued inside the store's transactional blocks. -/
inductive RedisCmd where
  | set (key value : Bytes)
  | rename (oldKey newKey : Bytes)
  | del (key : Bytes)
  | sadd (member : Bytes)
  | srem (member : Bytes)
  | smove (destination member : Bytes)
  | publish (channel : String) (message : Bytes)
deriving DecidableEq

/-- Apply one committed command to the broker state. `RENAME` of an
absent key leaves the state unchanged (inside `MULTI` those failures
are per-command replies at `EXEC` time and do not undo the other queued
commands).

Redis SMOVE takes `(source, destination, member)`. `RedisClient::smove`
sends `SMOVE <set> <old_member_key> <new_member_key>`, so — contrary to
its own doc comment "change a member name in a set" — the source is
`all_files`, the destination is the set at key `old_member_key`, and
the member moved is `new_member_key`: when the member is in `all_files`
it is moved out of `all_files` into the destination set, and otherwise
the command replies 0 and changes nothing. -/
def applyCmd (st : RedisState) : RedisCmd → RedisState
  | .set k v => { st with kv := kvSet st.kv k v }
  | .rename oldK newK =>
      match kvLookup st.kv oldK with
      | none => st
      | some v => { st with kv := kvSet (kvErase st.kv oldK) newK v }
  | .del k => { st with kv := kvErase st.kv k }
  | .sadd m => { st with allFiles := sAdd st.allFiles m }
  | .srem m => { st with allFiles := sRem st.allFiles m }
  | .smove dest memb =>
      if memb ∈ st.allFiles then
        { st with allFiles := sRem st.allFiles memb,
                  sets := setsAdd st.sets dest memb }
      else st
  | .publish ch msg => { st with published := st.published ++ [(ch, msg)] }

/-- Errors surfaced by the client and store layers. -/
inductive RedisError where
  | cmdError (c : RedisCmd)
  | discardError
  | transactionCancelled (cause : RedisError)
  | localReadError
deriving DecidableEq

/-- `RedisClient::in_transaction` (`client/redis_client.rs`): open a
MULTI block, run the commands, EXEC on success and DISCARD on the first
command failure. Under the broker's assumed transactional semantics the
queued commands take effect only at EXEC, so a successful run folds all
commands over the state and a failed run leaves the state untouched.
`failsAt` is the failure oracle for individual commands and
`discardFails` makes the DISCARD command itself fail. Mirroring the
source, the error returned after a successful DISCARD wraps the original
command error (`transaction was cancelled because of ...`), while a
DISCARD failure is propagated directly by the `?` operator. -/
def in_transaction (st : RedisState) (failsAt : RedisCmd → Bool)
    (discardFails : Bool) (cmds : List RedisCmd) : RedisState × Option RedisError :=
  match cmds.find? failsAt with
  | some c =>
      if discardFails then (st, some .discardError)
      else (st, some (.transactionCancelled (.cmdError c)))
  | none => (cmds.foldl applyCmd st, none)

/-! ## The local filesystem adapter (`local_fs_store.rs`)

The filesystem is a flat map from paths to raw contents. Directory
structure, permissions and partial writes are outside the model:
`ensure_directory_exists` is a no-op here and `write_file` always
succeeds, matching the success path of `std::fs`. -/

/-- A local filesystem: path to raw file bytes. -/
abbrev LocalFS := List (Bytes × Bytes)

/-- `LocalFSStore::local_hash`: read the file and hash its raw bytes;
a missing file is a read error (`none`). -/
def localHash (fs : LocalFS) (p : Path) : Option Nat :=
  (kvLookup fs p).map hashContent

/-- `LocalFSStore::write_file`: create parent directories, then
overwrite the file. -/
def write_file (fs : LocalFS) (p : Path) (contents : Bytes) : LocalFS :=
  kvSet fs p contents

/-- `LocalFSStore::remove_file`: delete the file; fails when absent. -/
def remove_file (fs : LocalFS) (p : Path) : Option LocalFS :=
  match kvLookup fs p with
  | none => none
  | some _ => some (kvErase fs p)

/-- `LocalFSStore::rename_file`: ensure the target's parent directory,
then move; fails when the source is absent. -/
def rename_file (fs : LocalFS) (old new : Path) : Option LocalFS :=
  match kvLookup fs old with
  | none => none
  | some v => some (kvSet (kvErase fs old) new v)

/-! ## The broker store facade (`redis_store.rs`) -/

/-- `RedisClient::get` as the program sees it: redis GET of a missing
key replies nil, which the client's `query::<Vec<u8>>` conversion turns
into an empty byte vector. -/
def redisGet (st : RedisState) (k : Bytes) : Bytes :=
  (kvLookup st.kv k).getD []

/-- `RedisStore::get_remote_file_content`: GET `content:P`, then stream
it through the frame decoder. -/
def get_remote_file_content (st : RedisState) (p : Path) : Option Bytes :=
  snapDecompress (redisGet st (contentKey p))

/-- `RedisStore::get_remote_file_hash`: GET `hash:P` and parse the
decimal; a missing key yields the empty string, which fails to parse. -/
def get_remote_file_hash (st : RedisState) (p : Path) : Option Nat :=
  parseDecimal (redisGet st (hashKey p))

/-- `RedisStore::get_all_remote_files`: SMEMBERS `all_files`. -/
def get_all_remote_files (st : RedisState) : List Bytes :=
  st.allFiles

/-- The command sequence of `RedisStore::new_file`'s transactional
block: set `hash:P`, set `content:P`, SADD to `all_files`, publish the
`NewFile` event. -/
def new_file_commands (emitter hash : Nat) (p : Path) (content : Bytes) :
    List RedisCmd :=
  [ .set (hashKey p) (decimalBytes hash),
    .set (contentKey p) content,
    .sadd p,
    .publish FILE_EVENT (encodePayload (.NewFile emitter hash p)) ]

/-- The command sequence of `RedisStore::modified_file` (no SADD). -/
def modified_file_commands (emitter hash : Nat) (p : Path) (content : Bytes) :
    List RedisCmd :=
  [ .set (hashKey p) (decimalBytes hash),
    .set (contentKey p) content,
    .publish FILE_EVENT (encodePayload (.ModifiedFile emitter hash p)) ]

/-- The command sequence of `RedisStore::renamed_file`: RENAME both
keys, the SMOVE issued by `RedisClient::smove` (which, given the
argument mapping described at `applyCmd`, has destination `old` and
member `new` — not a membership move of `old` to `new`), publish. -/
def renamed_file_commands (emitter : Nat) (old new : Path) : List RedisCmd :=
  [ .rename (hashKey old) (hashKey new),
    .rename (contentKey old) (contentKey new),
    .smove old new,
    .publish FILE_EVENT (encodePayload (.RenamedFile emitter old new)) ]

/-- The command sequence of `RedisStore::removed_file`: DEL both keys,
SREM the membership, publish. -/
def removed_file_commands (emitter : Nat) (p : Path) : List RedisCmd :=
  [ .del (hashKey p),
    .del (contentKey p),
    .srem p,
    .publish FILE_EVENT (encodePayload (.RemovedFile emitter p)) ]

/-- `RedisStore::new_file`: read and compress the local file (an
unreadable file aborts before any broker traffic), hash the result —
note: the hash is computed over the bytes returned by
`get_local_file_content`, i.e. over the *compressed* content — and run
the transactional block. -/
def RedisStore.new_file (fs : LocalFS) (st : RedisState)
    (failsAt : RedisCmd → Bool) (discardFails : Bool)
    (emitter : Nat) (p : Path) : RedisState × Option RedisError :=
  match kvLookup fs p with
  | none => (st, some .localReadError)
  | some raw =>
      let content := snapCompress raw
      let hash := hashContent content
      in_transaction st failsAt discardFails (new_file_commands emitter hash p content)

/-- `RedisStore::modified_file`, same structure without the SADD. -/
def RedisStore.modified_file (fs : LocalFS) (st : RedisState)
    (failsAt : RedisCmd → Bool) (discardFails : Bool)
    (emitter : Nat) (p : Path) : RedisState × Option RedisError :=
  match kvLookup fs p with
  | none => (st, some .localReadError)
  | some raw =>
      let content := snapCompress raw
      let hash := hashContent content
      in_transaction st failsAt discardFails (modified_file_commands emitter hash p content)

/-- `RedisStore::renamed_file`. -/
def RedisStore.renamed_file (st : RedisState)
    (failsAt : RedisCmd → Bool) (discardFails : Bool)
    (emitter : Nat) (old new : Path) : RedisState × Option RedisError :=
  in_transaction st failsAt discardFails (renamed_file_commands emitter old new)

/-- `RedisStore::removed_file`. -/
def RedisStore.removed_file (st : RedisState)
    (failsAt : RedisCmd → Bool) (discardFails : Bool)
    (emitter : Nat) (p : Path) : RedisState × Option RedisError :=
  in_transaction st failsAt discardFails (removed_file_commands emitter p)

/-! ## Typed file events (`event_handler/file_events.rs`)

`remote_files_event_handler.rs` destructures `FileEvents::New(path,
remote_hash)` and `FileEvents::Modified(path, remote_hash)`, so the
current `FileEvents` carries the remote hash; the copy of
`file_events.rs` in the tree is an earlier hashless revision.
Modelled from the spec: the conversion from a received channel name and
payload to a typed event dispatches on the payload variant, with the
fixed event channel `file_event`; an unexpected kind/payload
combination is an error (`bail!`). -/

/-- A typed file event as dispatched by the remote handler. -/
inductive FileEvents where
  | New (path : Path) (remoteHash : Nat)
  | Modified (path : Path) (remoteHash : Nat)
  | Removed (path : Path)
  | Renamed (oldPath newPath : Path)
deriving DecidableEq

/-- `FileEvents::from_str_and_payload`. -/
def from_str_and_payload (kind : String) (payload : EventPayload) :
    Option FileEvents :=
  if kind = FILE_EVENT then
    match payload with
    | .NewFile _ h p => some (.New p h)
    | .ModifiedFile _ h p => some (.Modified p h)
    | .RemovedFile _ p => some (.Removed p)
    | .RenamedFile _ old new => some (.Renamed old new)
  else none

/-! ## The remote subscriber (`remote_files_event_handler.rs`) -/

/-- The errors `handle_event` can surface (each is logged by the caller
and the message dropped). -/
inductive HandlerError where
  | unknownEvent
  | localHashError (p : Path)
  | fetchError (p : Path)
  | removeError (p : Path)
  | renameError (old new : Path)
deriving DecidableEq

/-- Observable local side effects of applying one event. -/
inductive Effect where
  | fetched (p : Path)
  | wrote (p : Path) (contents : Bytes)
  | removed (p : Path)
  | renamed (old new : Path)
deriving DecidableEq

/-- `RemoteFilesEventHandler::handle_event`: convert to a typed event,
then for `New`/`Modified` compute the local hash (propagating a read
failure with `?`, which abandons the apply), suppress the apply when it
equals the remote hash, otherwise fetch the remote content and write
it; `Removed` removes, `Renamed` renames. Returns the new filesystem
together with the effects performed. -/
def handle_event (st : RedisState) (fs : LocalFS) (kind : String)
    (payload : EventPayload) : Except HandlerError (LocalFS × List Effect) :=
  match from_str_and_payload kind payload with
  | none => .error .unknownEvent
  | some ev =>
    match ev with
    | .New p remoteHash | .Modified p remoteHash =>
      match localHash fs p with
      | none => .error (.localHashError p)
      | some lh =>
        if lh = remoteHash then .ok (fs, [])
        else
          match get_remote_file_content st p with
          | none => .error (.fetchError p)
          | some contents =>
              .ok (write_file fs p contents, [.fetched p, .wrote p contents])
    | .Removed p =>
      match remove_file fs p with
      | none => .error (.removeError p)
      | some fs' => .ok (fs', [.removed p])
    | .Renamed old new =>
      match rename_file fs old new with
      | none => .error (.renameError old new)
      | some fs' => .ok (fs', [.renamed old new])

/-- A raw pub/sub message: channel name and payload bytes. -/
structure Msg where
  channel : String
  payload : Bytes
deriving DecidableEq

/-- What the subscriber loop did with one message. -/
inductive Outcome where
  | skippedDecode
  | skippedSelf
  | applyError (e : HandlerError)
  | applied (effects : List Effect)
deriving DecidableEq

/-- One iteration of the subscriber loop in `start_watching`: decode the
payload (a failure is logged and the message skipped), drop the message
when its emitter id is this node's id, otherwise dispatch to
`handle_event` (whose error is logged, the loop continuing). -/
def processMessage (uniqueId : Nat) (st : RedisState) (fs : LocalFS)
    (m : Msg) : LocalFS × Outcome :=
  match decodePayload m.payload with
  | none => (fs, .skippedDecode)
  | some payload =>
    if payload.get_emitter_id = uniqueId then (fs, .skippedSelf)
    else
      match handle_event st fs m.channel payload with
      | .error e => (fs, .applyError e)
      | .ok (fs', effects) => (fs', .applied effects)

/-- The subscriber loop over a finite trace of received messages: every
message is processed in delivery order and yields exactly one outcome. -/
def runSubscriber (uniqueId : Nat) (st : RedisState) :
    LocalFS → List Msg → LocalFS × List Outcome
  | fs, [] => (fs, [])
  | fs, m :: ms =>
    let step := processMessage uniqueId st fs m
    let rest := runSubscriber uniqueId st step.1 ms
    (rest.1, step.2 :: rest.2)

/-! ## The reconciler (`synchronize_local_files_with_remote`) -/

/-- One path of the startup sweep: read the remote hash with the dummy
default `0` on error, the local hash with the dummy default `1` on
error, skip on a match, otherwise fetch the content and write it (a
fetch or write error is logged and the sweep continues). -/
def reconcileStep (st : RedisState) (fs : LocalFS) (p : Path) : LocalFS :=
  let remoteHash := (get_remote_file_hash st p).getD 0
  let lclHash := (localHash fs p).getD 1
  if remoteHash = lclHash then fs
  else
    match get_remote_file_content st p with
    | none => fs
    | some contents => write_file fs p contents

/-- The full startup sweep over `SMEMBERS all_files`. -/
def synchronize_local_files_with_remote (st : RedisState) (fs : LocalFS) :
    LocalFS :=
  (get_all_remote_files st).foldl (reconcileStep st) fs

/-! ## Codec round-trip lemmas -/

theorem expectByte_cons (b : Nat) (rest : Bytes) :
    expectByte b (b :: rest) = some rest := by
  simp [expectByte]

theorem readBytes_beBytes (k n : Nat) (tail : Bytes) :
    readBytes k (beBytes k n ++ tail) = some (beBytes k n, tail) := by
  have := readBytes_append (beBytes k n) tail
  rwa [beBytes_length] at this

theorem decodeUint_cd (n : Nat) (hn : n < 0x10000) (tail : Bytes) :
    decodeUint (0xcd :: (beBytes 2 n ++ tail)) = some (n, tail) := by
  simp [decodeUint, readBytes_beBytes,
    fromBE_beBytes 2 n (by norm_num at hn ⊢; omega)]

theorem decodeUint_ce (n : Nat) (hn : n < 0x100000000) (tail : Bytes) :
    decodeUint (0xce :: (beBytes 4 n ++ tail)) = some (n, tail) := by
  simp [decodeUint, readBytes_beBytes,
    fromBE_beBytes 4 n (by norm_num at hn ⊢; omega)]

theorem decodeUint_cf (n : Nat) (hn : n < w64) (tail : Bytes) :
    decodeUint (0xcf :: (beBytes 8 n ++ tail)) = some (n, tail) := by
  simp [decodeUint, readBytes_beBytes,
    fromBE_beBytes 8 n (by rw [show (256 : Nat) ^ 8 = 2 ^ 64 by norm_num]; exact hn)]

theorem decodeUint_encUint (n : Nat) (hn : n < w64) (rest : Bytes) :
    decodeUint (encUint n ++ rest) = some (n, rest) := by
  by_cases h1 : n < 0x80
  · simp [encUint, decodeUint, h1]
  · by_cases h2 : n < 0x100
    · simp [encUint, decodeUint, h1, h2]
    · by_cases h3 : n < 0x10000
      · have e : encUint n ++ rest = 0xcd :: (beBytes 2 n ++ rest) := by
          simp [encUint, h1, h2, h3]
        rw [e, decodeUint_cd n h3 rest]
      · by_cases h4 : n < 0x100000000
        · have e : encUint n ++ rest = 0xce :: (beBytes 4 n ++ rest) := by
            simp [encUint, h1, h2, h3, h4]
          rw [e, decodeUint_ce n h4 rest]
        · have e : encUint n ++ rest = 0xcf :: (beBytes 8 n ++ rest) := by
            simp [encUint, h1, h2, h3, h4]
          rw [e, decodeUint_cf n hn rest]

theorem decodeStr_encStr (s : Bytes) (hs : s.length < 0x100000000) (rest : Bytes) :
    decodeStr (encStr s ++ rest) = some (s, rest) := by
  by_cases h1 : s.length < 32
  · have e : encStr s ++ rest = (0xa0 + s.length) :: (s ++ rest) := by
      simp [encStr, encStrHeader, h1]
    rw [e]
    have hc : 0xa0 ≤ 0xa0 + s.length ∧ 0xa0 + s.length < 0xc0 := ⟨by omega, by omega⟩
    simp only [decodeStr, if_pos hc, Nat.add_sub_cancel_left]
    exact readBytes_append s rest
  · by_cases h2 : s.length < 0x100
    · have e : encStr s ++ rest = 0xd9 :: (s.length :: (s ++ rest)) := by
        simp [encStr, encStrHeader, h1, h2]
      rw [e]
      have hc : ¬(0xa0 ≤ (0xd9 : Nat) ∧ (0xd9 : Nat) < 0xc0) := by omega
      simp only [decodeStr, if_neg hc, if_pos rfl]
      exact readBytes_append s rest
    · by_cases h3 : s.length < 0x10000
      · have e : encStr s ++ rest = 0xda :: (beBytes 2 s.length ++ (s ++ rest)) := by
          simp [encStr, encStrHeader, h1, h2, h3]
        rw [e]
        have hc : ¬(0xa0 ≤ (0xda : Nat) ∧ (0xda : Nat) < 0xc0) := by omega
        simp only [decodeStr, if_neg hc, if_neg (by norm_num : ¬(0xda : Nat) = 0xd9),
          if_pos rfl, decodeUint_cd s.length h3 (s ++ rest)]
        exact readBytes_append s rest
      · have e : encStr s ++ rest = 0xdb :: (beBytes 4 s.length ++ (s ++ rest)) := by
          simp [encStr, encStrHeader, h1, h2, h3]
        rw [e]
        have hc : ¬(0xa0 ≤ (0xdb : Nat) ∧ (0xdb : Nat) < 0xc0) := by omega
        simp only [decodeStr, if_neg hc, if_neg (by norm_num : ¬(0xdb : Nat) = 0xd9),
          if_neg (by norm_num : ¬(0xdb : Nat) = 0xda), if_pos rfl,
          decodeUint_ce s.length hs (s ++ rest)]
        exact readBytes_append s rest

/-! ## Shared facts about transactions and commands -/

theorem in_transaction_fail_state (st : RedisState) (f : RedisCmd → Bool)
    (d : Bool) (cmds : List RedisCmd)
    (hfail : (in_transaction st f d cmds).2 ≠ none) :
    (in_transaction st f d cmds).1 = st := by
  unfold in_transaction at *
  cases h : cmds.find? f with
  | some c => cases d <;> simp
  | none => rw [h] at hfail; simp at hfail

theorem in_transaction_ok_state (st : RedisState) (f : RedisCmd → Bool)
    (d : Bool) (cmds : List RedisCmd)
    (hok : (in_transaction st f d cmds).2 = none) :
    (in_transaction st f d cmds).1 = cmds.foldl applyCmd st := by
  unfold in_transaction at *
  cases h : cmds.find? f with
  | some c => rw [h] at hok; cases d <;> simp at hok
  | none => rfl

theorem applyCmd_rename_some (st : RedisState) (oldK newK v : Bytes)
    (h : kvLookup st.kv oldK = some v) :
    applyCmd st (.rename oldK newK)
      = { st with kv := kvSet (kvErase st.kv oldK) newK v } := by
  simp only [applyCmd]
  rw [h]

theorem new_file_eq (fs : LocalFS) (st : RedisState) (failsAt : RedisCmd → Bool)
    (d : Bool) (emitter : Nat) (p : Path) (raw : Bytes)
    (hraw : kvLookup fs p = some raw) :
    RedisStore.new_file fs st failsAt d emitter p
      = in_transaction st failsAt d
          (new_file_commands emitter (hashContent (snapCompress raw)) p
            (snapCompress raw)) := by
  unfold RedisStore.new_file
  rw [hraw]

theorem modified_file_eq (fs : LocalFS) (st : RedisState) (failsAt : RedisCmd → Bool)
    (d : Bool) (emitter : Nat) (p : Path) (raw : Bytes)
    (hraw : kvLookup fs p = some raw) :
    RedisStore.modified_file fs st failsAt d emitter p
      = in_transaction st failsAt d
          (modified_file_commands emitter (hashContent (snapCompress raw)) p
            (snapCompress raw)) := by
  unfold RedisStore.modified_file
  rw [hraw]

/-! ## Claim theorems -/

/-- Claim C1: the claim states that a `NewFile`/`ModifiedFile` event for
a path whose local file is missing is treated as a hash mismatch, with
the content fetched and written. The code instead propagates the
`local_hash` error with `?` and abandons the apply: at a concrete store
holding `content:a` (compressed `abc`) and an empty local filesystem,
`handle_event` returns the local-hash error — even though the content
fetch would have succeeded, as the second conjunct shows — so no file is
ever written in response to the event. -/
theorem handle_event_missing_local_file_aborts :
    handle_event ⟨[(contentKey [97], snapCompress [97, 98, 99])], [[97]], [], []⟩ []
        FILE_EVENT (.NewFile 7 5 [97]) = .error (.localHashError [97]) ∧
    get_remote_file_content
        ⟨[(contentKey [97], snapCompress [97, 98, 99])], [[97]], [], []⟩ [97]
      = some [97, 98, 99] :=
  ⟨rfl, by decide⟩

/-- Atomicity of the publish operations under the modelled
transactional semantics. On success, `new_file` leaves `hash:P`,
`content:P`, the `all_files` membership and the published event all in
place; `modified_file` the same with the membership untouched;
`renamed_file` moves both keys and publishes, but — because the SMOVE
it issues has destination `old` and member `new` — it leaves
`all_files` entirely unchanged in the normal case where the new path is
not yet a member, so the old path stays a member and the new one is
never added. When any command inside a transactional block fails, the
returned state is exactly the initial state: no half-written entries
remain. -/
theorem publish_operations_atomic :
    (∀ (fs : LocalFS) (st : RedisState) (failsAt : RedisCmd → Bool) (d : Bool)
        (emitter : Nat) (p : Path) (raw : Bytes),
      kvLookup fs p = some raw →
      (RedisStore.new_file fs st failsAt d emitter p).2 = none →
      kvLookup (RedisStore.new_file fs st failsAt d emitter p).1.kv (hashKey p)
          = some (decimalBytes (hashContent (snapCompress raw))) ∧
      kvLookup (RedisStore.new_file fs st failsAt d emitter p).1.kv (contentKey p)
          = some (snapCompress raw) ∧
      p ∈ (RedisStore.new_file fs st failsAt d emitter p).1.allFiles ∧
      (RedisStore.new_file fs st failsAt d emitter p).1.published
          = st.published ++ [(FILE_EVENT,
              encodePayload (.NewFile emitter (hashContent (snapCompress raw)) p))]) ∧
    (∀ (fs : LocalFS) (st : RedisState) (failsAt : RedisCmd → Bool) (d : Bool)
        (emitter : Nat) (p : Path),
      (RedisStore.new_file fs st failsAt d emitter p).2 ≠ none →
      (RedisStore.new_file fs st failsAt d emitter p).1 = st) ∧
    (∀ (fs : LocalFS) (st : RedisState) (failsAt : RedisCmd → Bool) (d : Bool)
        (emitter : Nat) (p : Path) (raw : Bytes),
      kvLookup fs p = some raw →
      (RedisStore.modified_file fs st failsAt d emitter p).2 = none →
      kvLookup (RedisStore.modified_file fs st failsAt d emitter p).1.kv (hashKey p)
          = some (decimalBytes (hashContent (snapCompress raw))) ∧
      kvLookup (RedisStore.modified_file fs st failsAt d emitter p).1.kv (contentKey p)
          = some (snapCompress raw) ∧
      (RedisStore.modified_file fs st failsAt d emitter p).1.allFiles = st.allFiles ∧
      (RedisStore.modified_file fs st failsAt d emitter p).1.published
          = st.published ++ [(FILE_EVENT,
              encodePayload (.ModifiedFile emitter (hashContent (snapCompress raw)) p))]) ∧
    (∀ (fs : LocalFS) (st : RedisState) (failsAt : RedisCmd → Bool) (d : Bool)
        (emitter : Nat) (p : Path),
      (RedisStore.modified_file fs st failsAt d emitter p).2 ≠ none →
      (RedisStore.modified_file fs st failsAt d emitter p).1 = st) ∧
    (∀ (st : RedisState) (failsAt : RedisCmd → Bool) (d : Bool) (emitter : Nat)
        (old new : Path) (hv cv : Bytes),
      kvLookup st.kv (hashKey old) = some hv →
      kvLookup st.kv (contentKey old) = some cv →
      old ∈ st.allFiles → old ≠ new → new ∉ st.allFiles →
      (RedisStore.renamed_file st failsAt d emitter old new).2 = none →
      kvLookup (RedisStore.renamed_file st failsAt d emitter old new).1.kv (hashKey new)
          = some hv ∧
      kvLookup (RedisStore.renamed_file st failsAt d emitter old new).1.kv (contentKey new)
          = some cv ∧
      kvLookup (RedisStore.renamed_file st failsAt d emitter old new).1.kv (hashKey old)
          = none ∧
      kvLookup (RedisStore.renamed_file st failsAt d emitter old new).1.kv (contentKey old)
          = none ∧
      (RedisStore.renamed_file st failsAt d emitter old new).1.allFiles = st.allFiles ∧
      (RedisStore.renamed_file st failsAt d emitter old new).1.published
          = st.published ++ [(FILE_EVENT, encodePayload (.RenamedFile emitter old new))]) ∧
    (∀ (st : RedisState) (failsAt : RedisCmd → Bool) (d : Bool) (emitter : Nat)
        (old new : Path),
      (RedisStore.renamed_file st failsAt d emitter old new).2 ≠ none →
      (RedisStore.renamed_file st failsAt d emitter old new).1 = st) ∧
    (∀ (st : RedisState) (failsAt : RedisCmd → Bool) (d : Bool) (emitter : Nat)
        (p : Path),
      (RedisStore.removed_file st failsAt d emitter p).2 = none →
      kvLookup (RedisStore.removed_file st failsAt d emitter p).1.kv (hashKey p) = none ∧
      kvLookup (RedisStore.removed_file st failsAt d emitter p).1.kv (contentKey p) = none ∧
      p ∉ (RedisStore.removed_file st failsAt d emitter p).1.allFiles ∧
      (RedisStore.removed_file st failsAt d emitter p).1.published
          = st.published ++ [(FILE_EVENT, encodePayload (.RemovedFile emitter p))]) ∧
    (∀ (st : RedisState) (failsAt : RedisCmd → Bool) (d : Bool) (emitter : Nat)
        (p : Path),
      (RedisStore.removed_file st failsAt d emitter p).2 ≠ none →
      (RedisStore.removed_file st failsAt d emitter p).1 = st) := by
  refine ⟨?_, ?_, ?_, ?_, ?_, ?_, ?_, ?_⟩
  · intro fs st failsAt d emitter p raw hraw hok
    rw [new_file_eq fs st failsAt d emitter p raw hraw] at hok ⊢
    rw [in_transaction_ok_state _ _ _ _ hok]
    simp only [new_file_commands, List.foldl, applyCmd]
    refine ⟨?_, ?_, mem_sAdd_self _ _, trivial⟩
    · rw [kvLookup_set_ne _ _ _ _ (Ne.symm (hashKey_ne_contentKey p p)), kvLookup_set_self]
    · rw [kvLookup_set_self]
  · intro fs st failsAt d emitter p hfail
    unfold RedisStore.new_file at hfail ⊢
    cases hraw : kvLookup fs p with
    | none => rfl
    | some raw =>
        rw [hraw] at hfail
        exact in_transaction_fail_state _ _ _ _ hfail
  · intro fs st failsAt d emitter p raw hraw hok
    rw [modified_file_eq fs st failsAt d emitter p raw hraw] at hok ⊢
    rw [in_transaction_ok_state _ _ _ _ hok]
    simp only [modified_file_commands, List.foldl, applyCmd]
    refine ⟨?_, ?_, trivial, trivial⟩
    · rw [kvLookup_set_ne _ _ _ _ (Ne.symm (hashKey_ne_contentKey p p)), kvLookup_set_self]
    · rw [kvLookup_set_self]
  · intro fs st failsAt d emitter p hfail
    unfold RedisStore.modified_file at hfail ⊢
    cases hraw : kvLookup fs p with
    | none => rfl
    | some raw =>
        rw [hraw] at hfail
        exact in_transaction_fail_state _ _ _ _ hfail
  · intro st failsAt d emitter old new hv cv hh hc hmem hne hnm hok
    have hknn : hashKey new ≠ hashKey old := fun heq => hne (hashKey_inj new old heq).symm
    have cknn : contentKey new ≠ contentKey old :=
      fun heq => hne (contentKey_inj new old heq).symm
    unfold RedisStore.renamed_file at hok ⊢
    rw [in_transaction_ok_state _ _ _ _ hok]
    simp only [renamed_file_commands, List.foldl]
    rw [applyCmd_rename_some st _ _ hv hh]
    have hc1 : kvLookup (kvSet (kvErase st.kv (hashKey old)) (hashKey new) hv)
        (contentKey old) = some cv := by
      rw [kvLookup_set_ne _ _ _ _ (hashKey_ne_contentKey new old),
        kvLookup_erase_ne _ _ _ (hashKey_ne_contentKey old old)]
      exact hc
    rw [applyCmd_rename_some _ _ _ cv hc1]
    simp only [applyCmd, if_neg hnm]
    refine ⟨?_, ?_, ?_, ?_, trivial, trivial⟩
    · rw [kvLookup_set_ne _ _ _ _ (Ne.symm (hashKey_ne_contentKey new new)),
        kvLookup_erase_ne _ _ _ (Ne.symm (hashKey_ne_contentKey new old)),
        kvLookup_set_self]
    · rw [kvLookup_set_self]
    · rw [kvLookup_set_ne _ _ _ _ (Ne.symm (hashKey_ne_contentKey old new)),
        kvLookup_erase_ne _ _ _ (Ne.symm (hashKey_ne_contentKey old old)),
        kvLookup_set_ne _ _ _ _ hknn, kvLookup_erase_self]
    · rw [kvLookup_set_ne _ _ _ _ cknn, kvLookup_erase_self]
  · intro st failsAt d emitter old new hfail
    exact in_transaction_fail_state _ _ _ _ hfail
  · intro st failsAt d emitter p hok
    unfold RedisStore.removed_file at hok ⊢
    rw [in_transaction_ok_state _ _ _ _ hok]
    simp only [removed_file_commands, List.foldl, applyCmd]
    refine ⟨?_, ?_, not_mem_sRem_self _ _, trivial⟩
    · rw [kvLookup_erase_ne _ _ _ (Ne.symm (hashKey_ne_contentKey p p)),
        kvLookup_erase_self]
    · rw [kvLookup_erase_self]
  · intro st failsAt d emitter p hfail
    exact in_transaction_fail_state _ _ _ _ hfail

/-- Witness for claim C2: a successful `new_file` at a concrete state
produces the `hash:P` entry, and a failing one returns the state
unchanged. -/
theorem publish_operations_atomic_witness :
    kvLookup (RedisStore.new_file [([97], [98])] ⟨[], [], [], []⟩
        (fun _ => false) false 7 [97]).1.kv (hashKey [97])
      = some (decimalBytes (hashContent (snapCompress [98]))) ∧
    (RedisStore.new_file [([97], [98])] ⟨[], [], [], []⟩ (fun _ => true) false 7 [97]).1
      = ⟨[], [], [], []⟩ := by
  refine ⟨(publish_operations_atomic.1 [([97], [98])] ⟨[], [], [], []⟩
    (fun _ => false) false 7 [97] [98] rfl rfl).1, ?_⟩
  exact publish_operations_atomic.2.1 [([97], [98])] ⟨[], [], [], []⟩
    (fun _ => true) false 7 [97] (by decide)

/-- Claim C2: the claim states every publish operation is atomic over
the per-path entries it touches — for the renamed variant including the
`all_files` membership moving from the old path to the new one. The
SMOVE the client issues is `SMOVE all_files <old> <new>`; Redis SMOVE
takes `(source, destination, member)`, so the member moved is the *new*
path and the destination is a set named after the *old* path, contrary
to `RedisClient::smove`'s own doc comment "change a member name in a
set". At a concrete successful `renamed_file` (store holding the
entries of path `a`, renaming `a` to `b`): both keys move and the event
is published, but `all_files` still contains `a` and does not contain
`b` — the membership is not moved, so the claimed per-variant
atomic update does not hold of the program. -/
theorem renamed_file_leaves_membership_unmoved :
    (RedisStore.renamed_file
        ⟨[(hashKey [97], [53]), (contentKey [97], snapCompress [99])], [[97]], [], []⟩
        (fun _ => false) false 7 [97] [98]).2 = none ∧
    kvLookup (RedisStore.renamed_file
        ⟨[(hashKey [97], [53]), (contentKey [97], snapCompress [99])], [[97]], [], []⟩
        (fun _ => false) false 7 [97] [98]).1.kv (hashKey [98]) = some [53] ∧
    kvLookup (RedisStore.renamed_file
        ⟨[(hashKey [97], [53]), (contentKey [97], snapCompress [99])], [[97]], [], []⟩
        (fun _ => false) false 7 [97] [98]).1.kv (contentKey [98])
      = some (snapCompress [99]) ∧
    kvLookup (RedisStore.renamed_file
        ⟨[(hashKey [97], [53]), (contentKey [97], snapCompress [99])], [[97]], [], []⟩
        (fun _ => false) false 7 [97] [98]).1.kv (hashKey [97]) = none ∧
    [97] ∈ (RedisStore.renamed_file
        ⟨[(hashKey [97], [53]), (contentKey [97], snapCompress [99])], [[97]], [], []⟩
        (fun _ => false) false 7 [97] [98]).1.allFiles ∧
    [98] ∉ (RedisStore.renamed_file
        ⟨[(hashKey [97], [53]), (contentKey [97], snapCompress [99])], [[97]], [], []⟩
        (fun _ => false) false 7 [97] [98]).1.allFiles :=
  ⟨rfl, rfl, rfl, rfl, by decide, by decide⟩

/-- Claim C3: the claim states the hash stored under `hash:P` and
carried in events is computed over the uncompressed contents, so that
`hash:P = H(decompress(content:P))`. In `redis_store.rs`, `new_file`
hashes the value returned by `get_local_file_content`, which is the
*compressed* content: for the file `a` with bytes `abc`, a successful
`new_file` stores the hash of the compressed bytes, and that hash
differs from the hash of the raw bytes (which is what `decompress` of
`content:P` hashes to, and what `local_hash` computes on every peer). -/
theorem new_file_stores_hash_of_compressed_content :
    (RedisStore.new_file [([97], [97, 98, 99])] ⟨[], [], [], []⟩
        (fun _ => false) false 7 [97]).2 = none ∧
    kvLookup (RedisStore.new_file [([97], [97, 98, 99])] ⟨[], [], [], []⟩
        (fun _ => false) false 7 [97]).1.kv (hashKey [97])
      = some (decimalBytes (hashContent (snapCompress [97, 98, 99]))) ∧
    snapDecompress (snapCompress [97, 98, 99]) = some [97, 98, 99] ∧
    hashContent (snapCompress [97, 98, 99]) ≠ hashContent [97, 98, 99] :=
  ⟨rfl, rfl, by decide, by decide⟩

/-- Claim C4: a decoded event whose emitter id equals this node's id is
skipped before any dispatch: the subscriber step leaves the local
filesystem untouched and records the self-skip outcome, performing no
fetch, write, remove or rename. -/
theorem subscriber_skips_own_events (uniqueId : Nat) (st : RedisState)
    (fs : LocalFS) (m : Msg) (payload : EventPayload)
    (hdec : decodePayload m.payload = some payload)
    (hself : payload.get_emitter_id = uniqueId) :
    processMessage uniqueId st fs m = (fs, .skippedSelf) := by
  simp [processMessage, hdec, hself]

/-- Witness for claim C4: a node with id 7 receiving its own `NewFile`
event skips it. -/
theorem subscriber_skips_own_events_witness :
    decodePayload (encodePayload (.NewFile 7 5 [97])) = some (.NewFile 7 5 [97]) ∧
    processMessage 7 ⟨[], [], [], []⟩ [] ⟨FILE_EVENT, encodePayload (.NewFile 7 5 [97])⟩
      = ([], .skippedSelf) := by
  have hd : decodePayload (encodePayload (.NewFile 7 5 [97]))
      = some (.NewFile 7 5 [97]) := by decide
  exact ⟨hd, subscriber_skips_own_events 7 _ _ _ _ hd rfl⟩

/-- Claim C5: when the local hash of the event's path equals the remote
hash carried by a `NewFile` or `ModifiedFile` event, the handler is a
no-op: it returns success with the filesystem unchanged and an empty
effect list — no content fetch, no write. -/
theorem matching_hash_apply_is_noop (st : RedisState) (fs : LocalFS) (p : Path)
    (h e : Nat) (hloc : localHash fs p = some h) :
    handle_event st fs FILE_EVENT (.NewFile e h p) = .ok (fs, []) ∧
    handle_event st fs FILE_EVENT (.ModifiedFile e h p) = .ok (fs, []) := by
  constructor <;> simp [handle_event, from_str_and_payload, hloc]

/-- Witness for claim C5: a file with contents `hi` whose hash matches
the incoming event is left alone. -/
theorem matching_hash_apply_is_noop_witness :
    localHash [([97], [104, 105])] [97] = some (hashContent [104, 105]) ∧
    handle_event ⟨[], [], [], []⟩ [([97], [104, 105])] FILE_EVENT
        (.NewFile 9 (hashContent [104, 105]) [97]) = .ok ([([97], [104, 105])], []) :=
  ⟨rfl, (matching_hash_apply_is_noop ⟨[], [], [], []⟩ [([97], [104, 105])] [97]
    (hashContent [104, 105]) 9 rfl).1⟩

/-- Claim C6 counterexample: the claim states the error surfaced by
`in_transaction` is always the wrapped original command error and never
an error of the DISCARD step. But when the DISCARD itself fails, the
source's `self.discard()?` propagates the discard error: at a concrete
failing command with a failing discard, the surfaced error is
`discardError`, which is not a `transactionCancelled` wrap of anything. -/
theorem discard_failure_shadows_original_error :
    List.find? (fun _ => true) [RedisCmd.sadd [97]] = some (RedisCmd.sadd [97]) ∧
    (in_transaction ⟨[], [], [], []⟩ (fun _ => true) true [RedisCmd.sadd [97]]).2
      = some .discardError ∧
    ∀ cause : RedisError, RedisError.discardError ≠ .transactionCancelled cause :=
  ⟨rfl, rfl, fun _ h => RedisError.noConfusion h⟩

/-- Claim C6 (amended): when a command inside the transactional block
fails and the DISCARD step succeeds, the error surfaced to the caller is
the wrapped original command error; when the DISCARD itself fails, its
error is propagated instead (the original cause having been logged). -/
theorem failed_transaction_surfaces_wrapped_command_error (st : RedisState)
    (failsAt : RedisCmd → Bool) (cmds : List RedisCmd) (c : RedisCmd)
    (hfail : cmds.find? failsAt = some c) :
    in_transaction st failsAt false cmds
      = (st, some (.transactionCancelled (.cmdError c))) := by
  simp [in_transaction, hfail]

/-- Witness for the amended claim C6: a concrete failing command with a
succeeding discard surfaces the wrapped command error. -/
theorem failed_transaction_surfaces_wrapped_command_error_witness :
    in_transaction ⟨[], [], [], []⟩ (fun _ => true) false [RedisCmd.sadd [97]]
      = (⟨[], [], [], []⟩, some (.transactionCancelled (.cmdError (.sadd [97])))) :=
  failed_transaction_surfaces_wrapped_command_error ⟨[], [], [], []⟩
    (fun _ => true) [RedisCmd.sadd [97]] (RedisCmd.sadd [97]) rfl

/-- Claim C7: a message whose payload fails to decode is skipped with
the filesystem untouched, and the subscriber loop continues with the
remaining messages; every received message yields exactly one outcome,
so a decode failure never terminates the loop. -/
theorem decode_failure_skips_message_and_continues :
    (∀ (uniqueId : Nat) (st : RedisState) (fs : LocalFS) (m : Msg) (ms : List Msg),
      decodePayload m.payload = none →
      runSubscriber uniqueId st fs (m :: ms)
        = ((runSubscriber uniqueId st fs ms).1,
            .skippedDecode :: (runSubscriber uniqueId st fs ms).2)) ∧
    (∀ (uniqueId : Nat) (st : RedisState) (fs : LocalFS) (msgs : List Msg),
      ((runSubscriber uniqueId st fs msgs).2).length = msgs.length) := by
  constructor
  · intro uniqueId st fs m ms hdec
    simp [runSubscriber, processMessage, hdec]
  · intro uniqueId st fs msgs
    induction msgs generalizing fs with
    | nil => rfl
    | cons m ms ih => simp [runSubscriber, ih]

/-- Witness for claim C7: an empty payload fails to decode and the loop
records the skip and finishes the trace. -/
theorem decode_failure_skips_message_and_continues_witness :
    decodePayload ([] : Bytes) = none ∧
    runSubscriber 1 ⟨[], [], [], []⟩ [] [⟨FILE_EVENT, []⟩] = ([], [.skippedDecode]) := by
  have h1 := decode_failure_skips_message_and_continues.1 1 ⟨[], [], [], []⟩ []
    ⟨FILE_EVENT, []⟩ [] rfl
  exact ⟨rfl, by rw [h1]; rfl⟩

/-- Claim C8: for every well-formed event payload (any variant, any
`u64` emitter id and hash, any byte-string paths), decoding the encoding
returns the payload unchanged. -/
theorem decodePayload_encodePayload_roundtrip (x : EventPayload)
    (hwf : PayloadWF x) : decodePayload (encodePayload x) = some x := by
  cases x with
  | NewFile e h p =>
      obtain ⟨he, hh, hlen, _⟩ := hwf
      have hfin : decodeStr (encStr p) = some (p, []) := by
        simpa using decodeStr_encStr p hlen []
      simp [encodePayload, decodePayload, List.append_assoc, expectByte_cons,
        decodeUint_encUint 0 (by norm_num [w64]), decodeUint_encUint e he,
        decodeUint_encUint h hh, hfin]
  | ModifiedFile e h p =>
      obtain ⟨he, hh, hlen, _⟩ := hwf
      have hfin : decodeStr (encStr p) = some (p, []) := by
        simpa using decodeStr_encStr p hlen []
      simp [encodePayload, decodePayload, List.append_assoc, expectByte_cons,
        decodeUint_encUint 1 (by norm_num [w64]), decodeUint_encUint e he,
        decodeUint_encUint h hh, hfin]
  | RemovedFile e p =>
      obtain ⟨he, hlen, _⟩ := hwf
      have hfin : decodeStr (encStr p) = some (p, []) := by
        simpa using decodeStr_encStr p hlen []
      simp [encodePayload, decodePayload, List.append_assoc, expectByte_cons,
        decodeUint_encUint 2 (by norm_num [w64]), decodeUint_encUint e he, hfin]
  | RenamedFile e old new =>
      obtain ⟨he, ⟨hlo, _⟩, hln, _⟩ := hwf
      have hfin : decodeStr (encStr new) = some (new, []) := by
        simpa using decodeStr_encStr new hln []
      simp [encodePayload, decodePayload, List.append_assoc, expectByte_cons,
        decodeUint_encUint 3 (by norm_num [w64]), decodeUint_encUint e he,
        decodeStr_encStr old hlo, hfin]

/-- Witness for claim C8: a concrete `RenamedFile` payload survives the
round trip. -/
theorem decodePayload_encodePayload_roundtrip_witness :
    PayloadWF (.RenamedFile 3 [97] [47, 119, 47, 98]) ∧
    decodePayload (encodePayload (.RenamedFile 3 [97] [47, 119, 47, 98]))
      = some (.RenamedFile 3 [97] [47, 119, 47, 98]) := by
  have hwf : PayloadWF (.RenamedFile 3 [97] [47, 119, 47, 98]) := by
    refine ⟨by norm_num [w64], ⟨by norm_num, by decide⟩, by norm_num, by decide⟩
  exact ⟨hwf, decodePayload_encodePayload_roundtrip _ hwf⟩

/-- Claim C9: in the reconciler sweep, an unreadable remote hash is
replaced by the sentinel `0` and an unreadable local hash by the
different sentinel `1`: when both reads fail the sentinels differ and
the file is fetched and written; when only the remote read fails the
file is fetched unless the local content hashes to exactly the sentinel
`0`, and symmetrically for the local read with sentinel `1`. -/
theorem reconciler_sentinel_defaults_force_fetch (st : RedisState) (fs : LocalFS)
    (p : Path) (c : Bytes) (hfetch : get_remote_file_content st p = some c) :
    (get_remote_file_hash st p = none → localHash fs p = none →
      reconcileStep st fs p = write_file fs p c) ∧
    (get_remote_file_hash st p = none → ∀ h, localHash fs p = some h → h ≠ 0 →
      reconcileStep st fs p = write_file fs p c) ∧
    (localHash fs p = none → ∀ rh, get_remote_file_hash st p = some rh → rh ≠ 1 →
      reconcileStep st fs p = write_file fs p c) := by
  refine ⟨?_, ?_, ?_⟩
  · intro hr hl
    simp [reconcileStep, hr, hl, hfetch]
  · intro hr h hl hne
    simp [reconcileStep, hr, hl, hfetch, Ne.symm hne]
  · intro hl rh hr hne
    simp [reconcileStep, hr, hl, hfetch, hne]

/-- Witness for claim C9: a store holding only `content:a` (so the hash
read fails) and an empty local tree (so the local read fails) makes the
reconciler fetch and write the file. -/
theorem reconciler_sentinel_defaults_force_fetch_witness :
    get_remote_file_content ⟨[(contentKey [97], snapCompress [97, 98, 99])], [], [], []⟩ [97]
      = some [97, 98, 99] ∧
    reconcileStep ⟨[(contentKey [97], snapCompress [97, 98, 99])], [], [], []⟩ [] [97]
      = write_file [] [97] [97, 98, 99] := by
  have hf : get_remote_file_content
      ⟨[(contentKey [97], snapCompress [97, 98, 99])], [], [], []⟩ [97]
      = some [97, 98, 99] := by decide
  exact ⟨hf, (reconciler_sentinel_defaults_force_fetch
    ⟨[(contentKey [97], snapCompress [97, 98, 99])], [], [], []⟩ [] [97]
    [97, 98, 99] hf).1 rfl rfl⟩

/-- Claim C10: for a path whose `content:P` key is absent, the GET
yields the empty byte string, decompressing the empty input yields empty
output, and `get_remote_file_content` returns success with zero bytes;
consequently a reconcile step for such a path (with the hash key also
absent and no local file) writes an empty local file instead of
failing. -/
theorem missing_content_key_fetches_empty (st : RedisState) (fs : LocalFS)
    (p : Path) (hmiss : kvLookup st.kv (contentKey p) = none) :
    redisGet st (contentKey p) = [] ∧
    get_remote_file_content st p = some [] ∧
    (kvLookup st.kv (hashKey p) = none → localHash fs p = none →
      reconcileStep st fs p = write_file fs p []) := by
  have hg : redisGet st (contentKey p) = [] := by simp [redisGet, hmiss]
  have hc : get_remote_file_content st p = some [] := by
    simp [get_remote_file_content, hg, snapDecompress]
  refine ⟨hg, hc, ?_⟩
  intro hh hl
  have hrh : get_remote_file_hash st p = none := by
    simp [get_remote_file_hash, redisGet, hh, parseDecimal]
  simp [reconcileStep, hrh, hl, hc]

/-- Witness for claim C10: on an empty store, fetching path `a` yields
zero bytes and the reconcile step writes the empty file. -/
theorem missing_content_key_fetches_empty_witness :
    get_remote_file_content ⟨[], [], [], []⟩ [97] = some [] ∧
    reconcileStep ⟨[], [], [], []⟩ [] [97] = write_file [] [97] [] :=
  ⟨(missing_content_key_fetches_empty ⟨[], [], [], []⟩ [] [97] rfl).2.1,
   (missing_content_key_fetches_empty ⟨[], [], [], []⟩ [] [97] rfl).2.2 rfl rfl⟩

end FsSync
